import Mathlib

/-!
Verification of the ENS text-record resolution core (`getEnsText` and its
collaborators) against its natural-language specification.

The resolution entry point `getEnsText` is embedded shallowly from the
source: bytes are `List Nat` (each element a byte value), machine words are
`Nat` reduced modulo 2^64 where overflow matters, thrown JavaScript errors
are the explicit `Except` error track, and the single outbound aggregating
contract call is an oracle parameter `readResolve`; the list of calls the
function actually issued is returned alongside the result so that
"no network call was made" is a provable statement.

Collaborators that live outside the embedded source file (the keccak-based
namehash, DNS packet encoding, the ABI string codec and the
null-universal-resolver error classifier) are modelled from the
specification; each such definition says so in its doc comment.
-/

/-! ## Keccak-256 (the `hash` of the specification, §4.1) -/

/-- Rotate a 64-bit word (a `Nat` below 2^64) left by `n` bits. -/
def rol64 (x n : Nat) : Nat :=
  ((x <<< n) ||| (x >>> (64 - n))) % 18446744073709551616

/-- Round constants of the keccak-f[1600] permutation, as decimal numbers. -/
def keccakRC : List Nat :=
  [1, 32898, 9223372036854808714,
   9223372039002292224, 32907, 2147483649,
   9223372039002292353, 9223372036854808585, 138,
   136, 2147516425, 2147483658,
   2147516555, 9223372036854775947, 9223372036854808713,
   9223372036854808579, 9223372036854808578, 9223372036854775936,
   32778, 9223372039002259466, 9223372039002292353,
   9223372036854808704, 2147483649, 9223372039002292232]

/-- Rotation offsets of the rho step, indexed by lane `x + 5 * y` and
generated by the standard recurrence: starting from lane (1, 0), step `t`
(for `t` from 0 to 23) assigns offset (t+1)(t+2)/2 mod 64 and moves from
(x, y) to (y, (2x+3y) mod 5); lane (0, 0) keeps offset 0. -/
def keccakRot : List Nat :=
  ((List.range 24).foldl
    (fun s t =>
      ⟨s.1.set (s.2.1 + 5 * s.2.2) (((t + 1) * (t + 2) / 2) % 64),
       s.2.2, (2 * s.2.1 + 3 * s.2.2) % 5⟩)
    (⟨List.replicate 25 0, 1, 0⟩ : List Nat × Nat × Nat)).1

/-- Extract lane `i` (indexed `x + 5 * y`) of a packed 25-lane state: the
whole 1600-bit keccak state is carried as a single natural number, lane `i`
occupying bits `64 * i` to `64 * i + 63`. -/
def lane (S i : Nat) : Nat :=
  (S >>> (64 * i)) &&& 0xFFFFFFFFFFFFFFFF

/-- Pack the 25 lane values `f 0`, ..., `f 24` into one state number. -/
def assemble (f : Nat → Nat) : Nat :=
  (List.range 25).foldl (fun acc i => acc ||| (f i <<< (64 * i))) 0

/-- Theta step of keccak-f: XOR each lane with the parity of two nearby columns. -/
def keccakTheta (S : Nat) : Nat :=
  let C := fun x =>
    lane S x ^^^ lane S (x + 5) ^^^ lane S (x + 10) ^^^ lane S (x + 15) ^^^ lane S (x + 20)
  let D := fun x => C ((x + 4) % 5) ^^^ rol64 (C ((x + 1) % 5)) 1
  assemble (fun i => lane S i ^^^ D (i % 5))

/-- Combined rho and pi steps: rotate every lane and permute lane positions. -/
def keccakRhoPi (S : Nat) : Nat :=
  (List.range 25).foldl
    (fun acc i =>
      acc ||| (rol64 (lane S i) (keccakRot.getD i 0) <<<
        (64 * (i / 5 + 5 * ((2 * (i % 5) + 3 * (i / 5)) % 5)))))
    0

/-- Chi step: the only non-linear step of keccak-f. -/
def keccakChi (S : Nat) : Nat :=
  assemble (fun i =>
    lane S i ^^^
      ((lane S ((i % 5 + 1) % 5 + 5 * (i / 5)) ^^^ 0xFFFFFFFFFFFFFFFF) &&&
        lane S ((i % 5 + 2) % 5 + 5 * (i / 5))))

/-- One round of keccak-f[1600]: theta, rho, pi, chi, then the iota round
constant XORed into lane 0 (the constant is below 2^64). -/
def keccakRound (S rc : Nat) : Nat :=
  keccakChi (keccakRhoPi (keccakTheta S)) ^^^ rc

/-- Run the rounds of keccak-f over the state. The two branches of the test
coincide; comparing the state with zero only forces it to a numeric literal
at every round boundary, which keeps definitional reduction shallow. -/
def keccakFAux : List Nat → Nat → Nat
  | [], S => S
  | rc :: rest, S =>
    if S = 0 then keccakFAux rest (keccakRound S rc)
    else keccakFAux rest (keccakRound S rc)

/-- The full 24-round keccak-f[1600] permutation on a packed state. -/
def keccakF (S : Nat) : Nat :=
  keccakFAux keccakRC S

/-- Multi-rate padding of the original keccak (0x01 ... 0x80) at rate 136 bytes. -/
def pad101 (msg : List Nat) : List Nat :=
  let padLen := 136 - msg.length % 136
  if padLen = 1 then msg ++ [0x81]
  else msg ++ [0x01] ++ List.replicate (padLen - 2) 0 ++ [0x80]

/-- Interpret a byte list as a little-endian natural number; on a 136-byte
block this is exactly the packed form of the 17 absorbed lanes. -/
def leNat (bs : List Nat) : Nat :=
  bs.foldr (fun b acc => acc * 256 + b) 0

/-- Split a byte list into 136-byte blocks; the first argument is fuel. -/
def chunksAux : Nat → List Nat → List (List Nat)
  | 0, _ => []
  | n + 1, l => if l = [] then [] else l.take 136 :: chunksAux n (l.drop 136)

/-- The `k` little-endian bytes of the word `x`. -/
def natToLEBytes (x k : Nat) : List Nat :=
  (List.range k).map fun i => (x >>> (8 * i)) % 256

/-- Keccak-256 of a byte list: pad, absorb every block (XOR into the low
1088 bits, then permute), squeeze the first 32 state bytes. -/
def keccak256 (msg : List Nat) : List Nat :=
  let padded := pad101 msg
  natToLEBytes
    ((chunksAux (padded.length + 1) padded).foldl (fun S b => keccakF (S ^^^ leNat b)) 0) 32

/-! ## Name encoding (NameEncoder, spec §4.1) -/

/-- UTF-8 encoding of a single character. -/
def utf8Bytes (c : Char) : List Nat :=
  let n := c.toNat
  if n < 0x80 then [n]
  else if n < 0x800 then
    [0xC0 ||| (n >>> 6), 0x80 ||| (n &&& 0x3F)]
  else if n < 0x10000 then
    [0xE0 ||| (n >>> 12), 0x80 ||| ((n >>> 6) &&& 0x3F), 0x80 ||| (n &&& 0x3F)]
  else
    [0xF0 ||| (n >>> 18), 0x80 ||| ((n >>> 12) &&& 0x3F), 0x80 ||| ((n >>> 6) &&& 0x3F),
     0x80 ||| (n &&& 0x3F)]

/-- UTF-8 bytes of a label given as a character list. -/
def labelBytes (cs : List Char) : List Nat :=
  cs.flatMap utf8Bytes

/-- Split a character list on the label delimiter; always returns at least
one (possibly empty) label, matching how the source splits a name on the
fixed delimiter. -/
def splitDots : List Char → List (List Char)
  | [] => [[]]
  | c :: rest =>
    match splitDots rest with
    | [] => []
    | l :: ls => if c = '.' then [] :: l :: ls else (c :: l) :: ls

/-- Modelled from the spec: `toNameHash(name)` (§4.1) starts from a 32-byte
zero digest and, for each label from rightmost (root-adjacent) to leftmost,
sets digest = hash(digest ‖ hash(labelBytes)), with keccak-256 as the hash.
The source file only imports `namehash`; its implementation is not part of
the embedded sources. -/
def namehash (name : String) : List Nat :=
  (splitDots name.data).foldr
    (fun label digest => keccak256 (digest ++ keccak256 (labelBytes label)))
    (List.replicate 32 0)

/-- Modelled from the spec: `toPacketBytes(name)` (§4.1) splits the name on
the label delimiter, emits a (length, bytes) pair per label in original
order, appends a terminating zero-length label, and fails when a label
exceeds the maximum representable length of 255 bytes. The source file only
imports `packetToBytes`; its implementation is not part of the embedded
sources. -/
def packetToBytes (name : String) : Option (List Nat) :=
  let labels := splitDots name.data
  if labels.all (fun l => (labelBytes l).length ≤ 255) then
    some (labels.foldr (fun l acc => (labelBytes l).length :: (labelBytes l ++ acc)) [0])
  else none

/-! ## ABI string decoding (ResultDecoder payload codec, spec §4.4 and §6) -/

/-- Whether a byte is a UTF-8 continuation byte. -/
def isCont (b : Nat) : Bool :=
  decide (0x80 ≤ b) && decide (b < 0xC0)

/-- UTF-8 decoding with explicit fuel (one unit per consumed leading byte). -/
def utf8DecodeAux : Nat → List Nat → Option (List Char)
  | _, [] => some []
  | 0, _ :: _ => none
  | fuel + 1, b :: rest =>
    if b < 0x80 then (utf8DecodeAux fuel rest).map (fun cs => Char.ofNat b :: cs)
    else if b < 0xC2 then none
    else if b < 0xE0 then
      match rest with
      | c1 :: rest2 =>
        if isCont c1 then
          (utf8DecodeAux fuel rest2).map (fun cs => Char.ofNat ((b - 0xC0) * 64 + (c1 - 0x80)) :: cs)
        else none
      | [] => none
    else if b < 0xF0 then
      match rest with
      | c1 :: c2 :: rest2 =>
        if isCont c1 && isCont c2 then
          let n := (b - 0xE0) * 4096 + (c1 - 0x80) * 64 + (c2 - 0x80)
          if decide (0x800 ≤ n) && (decide (n < 0xD800) || decide (0xDFFF < n)) then
            (utf8DecodeAux fuel rest2).map (fun cs => Char.ofNat n :: cs)
          else none
        else none
      | _ => none
    else if b < 0xF5 then
      match rest with
      | c1 :: c2 :: c3 :: rest2 =>
        if isCont c1 && isCont c2 && isCont c3 then
          let n := (b - 0xF0) * 262144 + (c1 - 0x80) * 4096 + (c2 - 0x80) * 64 + (c3 - 0x80)
          if decide (0x10000 ≤ n) && decide (n ≤ 0x10FFFF) then
            (utf8DecodeAux fuel rest2).map (fun cs => Char.ofNat n :: cs)
          else none
        else none
      | _ => none
    else none

/-- Total UTF-8 decoder; `none` on malformed byte sequences. -/
def utf8Decode (bs : List Nat) : Option (List Char) :=
  utf8DecodeAux bs.length bs

/-- Interpret a byte list as a big-endian natural number. -/
def beNat (bs : List Nat) : Nat :=
  bs.foldl (fun acc b => acc * 256 + b) 0

/-- Modelled from the spec: the ABI codec's `decode` for the record-query
return shape (§4.4, §6) — a length-prefixed string payload: a 32-byte
head offset, then at that offset a 32-byte byte length followed by the
string bytes. Returns `none` on a malformed payload (truncated data or
invalid text bytes); the source file only imports `decodeFunctionResult`;
its implementation is not part of the embedded sources. -/
def decodeFunctionResult (data : List Nat) : Option String :=
  if data.length < 32 then none
  else
    let off := beNat (data.take 32)
    if data.length < off + 32 then none
    else
      let len := beNat ((data.drop off).take 32)
      let payload := (data.drop (off + 32)).take len
      if payload.length < len then none
      else (utf8Decode payload).map (fun cs => String.mk cs)

/-! ## Data model of the resolution entry point -/

/-- A configured chain; carries the registered universal-resolver contract
address that the chain registry (spec §6) resolves. -/
structure Chain where
  ensUniversalResolver : Nat
deriving DecidableEq

/-- The client: the only field the embedded source reads is the optional
chain configuration. -/
structure Client where
  chain : Option Chain
deriving DecidableEq

/-- The caller's key request: a single record key or an ordered sequence of
keys (source line 130 distinguishes the two with an array check). -/
inductive KeyArg where
  | single (k : String)
  | many (ks : List String)
deriving DecidableEq

/-- Parameters of `getEnsText` (source lines 107 to 113). -/
structure Params where
  blockNumber : Option Nat
  blockTag : Option String
  name : String
  key : KeyArg
  universalResolverAddress : Option Nat
deriving DecidableEq

/-- One encoded sub-call: "query record `key` of the name with this
namehash" (spec §4.2, source lines 139 to 145). -/
structure SubCall where
  node : List Nat
  key : String
deriving DecidableEq

/-- The arguments of the single aggregating `resolve` read call
(source lines 133 to 148). -/
structure CallArgs where
  address : Nat
  packet : List Nat
  calls : List SubCall
  blockNumber : Option Nat
  blockTag : Option String
deriving DecidableEq

/-- Errors that can be thrown inside the `try` block of the source:
a name-encoding failure, the recognized no-resolver condition, any other
contract or transport failure (carrying an opaque code), and a sub-result
decoding failure. -/
inductive ThrownError where
  | encodingError
  | noResolver
  | contractError (code : Nat)
  | decodingError
deriving DecidableEq

/-- A failure surfaced to the caller: the configuration error thrown before
the `try` block (source lines 117 to 120), or an error re-raised from
inside it. -/
inductive EnsFailure where
  | configError
  | raised (e : ThrownError)
deriving DecidableEq

/-- The decoded-records object (source line 151): an insertion-ordered
association list from key to decoded record, mirroring a JavaScript object
with string keys. -/
abbrev RecordMap := List (String × Option String)

/-- The successful return value of `getEnsText`: JavaScript `null`, a bare
string, the records object, or JavaScript `undefined` (reachable only when
the aggregating call answers with fewer sub-results than keys). -/
inductive TextReturn where
  | null
  | value (s : String)
  | record (m : RecordMap)
  | undef
deriving DecidableEq

instance {ε α : Type} [DecidableEq ε] [DecidableEq α] : DecidableEq (Except ε α) := fun x y =>
  match x, y with
  | Except.ok a, Except.ok b =>
    if h : a = b then isTrue (by rw [h]) else isFalse (by intro hc; cases hc; exact h rfl)
  | Except.error a, Except.error b =>
    if h : a = b then isTrue (by rw [h]) else isFalse (by intro hc; cases hc; exact h rfl)
  | Except.ok _, Except.error _ => isFalse (by intro hc; cases hc)
  | Except.error _, Except.ok _ => isFalse (by intro hc; cases hc)

/-- What one invocation of `getEnsText` produced: its result and the list
of aggregating read calls it actually issued (the source issues at most
one, at line 133). -/
structure Outcome where
  result : Except EnsFailure TextReturn
  callsIssued : List CallArgs

/-! ## The resolution entry point, embedded from the source -/

/-- Modelled from the spec: `isNullUniversalResolverError(err, callType)`
(§4.6, §7) recognizes the "no resolver is registered for this name"
condition for the specific operation being performed (here the `resolve`
entry point); the source file only imports this classifier. -/
def isNullUniversalResolverError (e : ThrownError) (fn : String) : Bool :=
  match e with
  | ThrownError.noResolver => if fn = ("resolve") then true else false
  | _ => false

/-- Source lines 115 to 127: use the explicit resolver address when given;
otherwise fail with the configuration error when no chain is configured,
else take the chain's registered universal-resolver address. -/
def resolveUR (client : Client) (p : Params) : Except EnsFailure Nat :=
  match p.universalResolverAddress with
  | some a => Except.ok a
  | none =>
    match client.chain with
    | none => Except.error EnsFailure.configError
    | some c => Except.ok c.ensUniversalResolver

/-- Source line 130: normalize the key argument to an array. -/
def keysOf : KeyArg → List String
  | KeyArg.single k => [k]
  | KeyArg.many ks => ks

/-- Source lines 133 to 148: the arguments of the aggregating `resolve`
call — the packet-encoded name and one encoded `text(namehash(name), key)`
sub-call per requested key, in request order. -/
def buildCallArgs (addr : Nat) (p : Params) : Except ThrownError CallArgs :=
  match packetToBytes p.name with
  | none => Except.error ThrownError.encodingError
  | some pkt =>
    Except.ok
      ⟨addr, pkt, (keysOf p.key).map (fun k => ⟨namehash p.name, k⟩), p.blockNumber, p.blockTag⟩

/-- Source lines 157 to 168, the body of one loop iteration: the
zero-length sentinel decodes to `null`; otherwise the payload is ABI
decoded (a malformed payload throws), and an empty decoded string also
becomes `null`. -/
def decodeOne (raw : List Nat) : Except ThrownError (Option String) :=
  if raw = [] then Except.ok none
  else
    match decodeFunctionResult raw with
    | none => Except.error ThrownError.decodingError
    | some record => Except.ok (if record = "" then none else some record)

/-- JavaScript object assignment on the records object: overwrite the
value in place when the key is present, append otherwise. -/
def upsert (m : RecordMap) (k : String) (v : Option String) : RecordMap :=
  match m with
  | [] => [(k, v)]
  | q :: rest => if q.1 = k then (k, v) :: rest else q :: upsert rest k v

/-- JavaScript object indexing on the records object: `none` plays the
role of an `undefined` read of an absent key. -/
def jsGet (m : RecordMap) (k : String) : Option (Option String) :=
  match m with
  | [] => none
  | q :: rest => if q.1 = k then some q.2 else jsGet rest k

/-- Source lines 153 to 169: walk the positional sub-results, decode each
independently, and assign it to the key at the same position (an index past
the end of the key array reads as the JavaScript string form of
`undefined`). -/
def decodeRecordsGo (keys : List String) (i : Nat) (rs : List (List Nat)) (acc : RecordMap) :
    Except ThrownError RecordMap :=
  match rs with
  | [] => Except.ok acc
  | r :: rest =>
    match decodeOne r with
    | Except.error e => Except.error e
    | Except.ok v => decodeRecordsGo keys (i + 1) rest (upsert acc (keys.getD i ("undefined")) v)

/-- JavaScript array-to-string coercion (elements joined with commas),
which is how line 172 indexes the records object when the original key
argument was an array. -/
def joinAux : List String → String
  | [] => ""
  | [k] => k
  | k :: rest => k ++ ("," ++ joinAux rest)

/-- The property key used at source line 172: the original key argument
coerced to a string (a bare key is itself; an array joins with commas). -/
def joinKey : KeyArg → String
  | KeyArg.single k => k
  | KeyArg.many ks => joinAux ks

/-- Source lines 171 to 173: one requested key yields the bare decoded
value read back from the object; otherwise the whole object is returned. -/
def shape (key : KeyArg) (m : RecordMap) : TextReturn :=
  if (keysOf key).length = 1 then
    match jsGet m (joinKey key) with
    | none => TextReturn.undef
    | some none => TextReturn.null
    | some (some s) => TextReturn.value s
  else TextReturn.record m

/-- Source lines 174 to 177: the recognized no-resolver condition becomes
a successful `null`; every other thrown error is re-raised unchanged. -/
def catchNull (e : ThrownError) : Except EnsFailure TextReturn :=
  if isNullUniversalResolverError e ("resolve") then Except.ok TextReturn.null
  else Except.error (EnsFailure.raised e)

/-- The embedded `getEnsText` (source lines 101 to 178). The aggregating
read call is the oracle `readResolve`; it answers with the positional
sub-result list and the discovered resolver address (the source reads only
the former, as `res[0]`). The returned `Outcome` carries the result and
the list of aggregating calls that were issued. -/
def getEnsText (client : Client)
    (readResolve : CallArgs → Except ThrownError (List (List Nat) × Nat))
    (p : Params) : Outcome :=
  match resolveUR client p with
  | Except.error e => ⟨Except.error e, []⟩
  | Except.ok addr =>
    match buildCallArgs addr p with
    | Except.error e => ⟨catchNull e, []⟩
    | Except.ok args =>
      match readResolve args with
      | Except.error e => ⟨catchNull e, [args]⟩
      | Except.ok res =>
        match decodeRecordsGo (keysOf p.key) 0 res.1 [] with
        | Except.error e => ⟨catchNull e, [args]⟩
        | Except.ok m => ⟨Except.ok (shape p.key m), [args]⟩

/-! ## Helper definitions and lemmas -/

/-- Reference encoder for a well-formed record-query return payload
(head offset 32, then the byte length, then the string bytes); used to
build concrete inputs in closed instances. -/
def encodeTextPayload (s : String) : List Nat :=
  List.replicate 31 0 ++ [32] ++ List.replicate 31 0 ++
    [(labelBytes s.data).length] ++ labelBytes s.data

lemma upsert_fresh (m : RecordMap) (k : String) (v : Option String)
    (h : ∀ q ∈ m, q.1 ≠ k) : upsert m k v = m ++ [(k, v)] := by
  induction m with
  | nil => simp [upsert]
  | cons q rest ih =>
    have hq : q.1 ≠ k := h q (by simp)
    simp only [upsert, if_neg hq, List.cons_append, List.cons.injEq, true_and]
    exact ih (fun q' hq' => h q' (by simp [hq']))

lemma decodeRecordsGo_zip (keys : List String) (rs : List (List Nat))
    (vs : List (Option String)) :
    ∀ (kt : List String) (i : Nat) (acc : RecordMap),
      List.Forall₂ (fun r v => decodeOne r = Except.ok v) rs vs →
      (∀ j, j < rs.length → keys.getD (i + j) ("undefined") = kt.getD j ("undefined")) →
      rs.length = kt.length →
      kt.Nodup →
      (∀ q ∈ acc, q.1 ∉ kt) →
      decodeRecordsGo keys i rs acc = Except.ok (acc ++ kt.zip vs) := by
  induction rs generalizing vs with
  | nil =>
    intro kt i acc hf hidx hlen _ _
    cases hf
    cases kt with
    | nil => simp [decodeRecordsGo]
    | cons k0 kt => simp at hlen
  | cons r rest ih =>
    intro kt i acc hf hidx hlen hnd hfresh
    cases hf with
    | cons hrv htail =>
      rename_i v vs'
      cases kt with
      | nil => simp at hlen
      | cons k0 kt =>
        have hk0 : keys.getD i ("undefined") = k0 := by
          have h0 := hidx 0 (by simp)
          simpa using h0
        have hup : upsert acc (keys.getD i ("undefined")) v = acc ++ [(k0, v)] := by
          rw [hk0]
          exact upsert_fresh acc k0 v (fun q hq => by
            have hmem := hfresh q hq
            simp only [List.mem_cons, not_or] at hmem
            exact hmem.1)
        have hstep : decodeRecordsGo keys i (r :: rest) acc =
            decodeRecordsGo keys (i + 1) rest (acc ++ [(k0, v)]) := by
          simp only [decodeRecordsGo, hrv]
          rw [hup]
        rw [hstep]
        have hres := ih vs' kt (i + 1) (acc ++ [(k0, v)]) htail
          (fun j hj => by
            have h1 := hidx (j + 1) (by simpa using Nat.succ_lt_succ hj)
            have harith : i + (j + 1) = i + 1 + j := by omega
            rw [harith] at h1
            simpa using h1)
          (by simpa using hlen)
          (List.Nodup.of_cons hnd)
          (fun q hq => by
            rcases List.mem_append.mp hq with hql | hqr
            · have hmem := hfresh q hql
              simp only [List.mem_cons, not_or] at hmem
              exact hmem.2
            · have hq0 : q = (k0, v) := by simpa using hqr
              rw [hq0]
              exact (List.nodup_cons.mp hnd).1)
        rw [hres]
        simp

lemma jsGet_zip (ks : List String) :
    ∀ (vs : List (Option String)) (i : Nat), ks.Nodup → i < ks.length →
      vs.length = ks.length →
      jsGet (ks.zip vs) (ks.getD i ("undefined")) = some (vs.getD i none) := by
  induction ks with
  | nil => intro vs i _ hi _; simp at hi
  | cons k ks ih =>
    intro vs i hnd hi hlen
    cases vs with
    | nil => simp at hlen
    | cons v vs =>
      cases i with
      | zero => simp [jsGet]
      | succ j =>
        have hj : j < ks.length := by simpa using hi
        have hk : k ≠ ks.getD j ("undefined") := by
          intro hEq
          have hmem : ks.getD j ("undefined") ∈ ks := by
            rw [List.getD_eq_getElem ks ("undefined") hj]
            exact List.getElem_mem hj
          rw [← hEq] at hmem
          exact (List.nodup_cons.mp hnd).1 hmem
        simp only [List.zip_cons_cons, List.getD_cons_succ, jsGet]
        rw [if_neg hk]
        exact ih vs j (List.Nodup.of_cons hnd) hj (by simpa using hlen)

lemma decodeRecordsGo_err (keys : List String) (rs1 : List (List Nat)) :
    ∀ (bad : List Nat) (rest : List (List Nat)) (i : Nat) (acc : RecordMap),
      (∀ r ∈ rs1, ∃ v, decodeOne r = Except.ok v) →
      decodeOne bad = Except.error ThrownError.decodingError →
      decodeRecordsGo keys i (rs1 ++ bad :: rest) acc =
        Except.error ThrownError.decodingError := by
  induction rs1 with
  | nil =>
    intro bad rest i acc _ hbad
    simp [decodeRecordsGo, hbad]
  | cons r rs1 ih =>
    intro bad rest i acc hok hbad
    obtain ⟨v, hv⟩ := hok r (by simp)
    simp only [List.cons_append, decodeRecordsGo, hv]
    exact ih bad rest (i + 1) _ (fun r' hr' => hok r' (by simp [hr'])) hbad

/-! ## Claim theorems -/

/-- C1: for every raw sub-result whose decoding step succeeds, the decoded
per-key record is `null` exactly when the sub-result is the zero-length
sentinel or decodes to the empty string; otherwise it is the non-empty
decoded string — so a record never set and one set to the empty string are
indistinguishable. -/
theorem decodeOne_null_iff_sentinel_or_empty (raw : List Nat) (r : Option String)
    (h : decodeOne raw = Except.ok r) :
    (r = none ↔ raw = [] ∨ decodeFunctionResult raw = some "") ∧
    (∀ s, r = some s → s ≠ "" ∧ decodeFunctionResult raw = some s) := by
  unfold decodeOne at h
  split at h
  next hraw =>
    have hr : r = none := by cases h; rfl
    subst hr
    exact ⟨⟨fun _ => Or.inl hraw, fun _ => rfl⟩, fun s hs => by cases hs⟩
  next hraw =>
    split at h
    next hdec => cases h
    next s0 hdec =>
      have hr : r = if s0 = "" then none else some s0 := by cases h; rfl
      subst hr
      by_cases hs0 : s0 = ""
      · subst hs0
        simp only [if_pos rfl]
        exact ⟨⟨fun _ => Or.inr hdec, fun _ => rfl⟩, fun s hs => by cases hs⟩
      · simp only [if_neg hs0]
        constructor
        · constructor
          · intro hc; cases hc
          · intro hc
            rcases hc with hc | hc
            · exact absurd hc hraw
            · rw [hc] at hdec
              injection hdec with hinj
              exact absurd hinj.symm hs0
        · intro s hs
          injection hs with hinj
          subst hinj
          exact ⟨hs0, hdec⟩

theorem decodeOne_null_iff_sentinel_or_empty_witness :
    ((none : Option String) = none ↔ ([] : List Nat) = [] ∨
      decodeFunctionResult [] = some "") ∧
    (∀ s, (none : Option String) = some s → s ≠ "" ∧ decodeFunctionResult [] = some s) :=
  decodeOne_null_iff_sentinel_or_empty [] none rfl

/-- C2: when the aggregating resolve call fails with the recognized
no-resolver condition, `getEnsText` returns a successful `null`, whatever
the requested key shape was. -/
theorem getEnsText_noResolver_returns_null (client : Client)
    (readResolve : CallArgs → Except ThrownError (List (List Nat) × Nat))
    (p : Params) (addr : Nat) (args : CallArgs)
    (haddr : resolveUR client p = Except.ok addr)
    (hargs : buildCallArgs addr p = Except.ok args)
    (hread : readResolve args = Except.error ThrownError.noResolver) :
    (getEnsText client readResolve p).result = Except.ok TextReturn.null := by
  simp [getEnsText, haddr, hargs, hread, catchNull, isNullUniversalResolverError]

theorem getEnsText_noResolver_returns_null_witness :
    (getEnsText ⟨some ⟨77⟩⟩ (fun _ => Except.error ThrownError.noResolver)
        ⟨none, none, "alice.eth", KeyArg.single ("com.twitter"), none⟩).result =
      Except.ok TextReturn.null :=
  getEnsText_noResolver_returns_null _ _ _ 77
    ⟨77, [5, 97, 108, 105, 99, 101, 3, 101, 116, 104, 0],
     [⟨namehash ("alice.eth"), "com.twitter"⟩], none, none⟩ rfl rfl rfl

/-- C3: when the aggregating call fails with any condition that is not the
recognized no-resolver condition, the original failure is re-raised
unchanged (the same error value, not `null`), and exactly the one
aggregating call was issued (no retry). -/
theorem getEnsText_reraises_other_failures (client : Client)
    (readResolve : CallArgs → Except ThrownError (List (List Nat) × Nat))
    (p : Params) (addr : Nat) (args : CallArgs) (e : ThrownError)
    (haddr : resolveUR client p = Except.ok addr)
    (hargs : buildCallArgs addr p = Except.ok args)
    (hread : readResolve args = Except.error e)
    (hne : isNullUniversalResolverError e ("resolve") = false) :
    (getEnsText client readResolve p).result = Except.error (EnsFailure.raised e) ∧
    (getEnsText client readResolve p).callsIssued = [args] := by
  constructor <;> simp [getEnsText, haddr, hargs, hread, catchNull, hne]

theorem getEnsText_reraises_other_failures_witness :
    (getEnsText ⟨some ⟨77⟩⟩ (fun _ => Except.error (ThrownError.contractError 7))
        ⟨none, none, "alice.eth", KeyArg.single ("com.twitter"), none⟩).result =
      Except.error (EnsFailure.raised (ThrownError.contractError 7)) ∧
    (getEnsText ⟨some ⟨77⟩⟩ (fun _ => Except.error (ThrownError.contractError 7))
        ⟨none, none, "alice.eth", KeyArg.single ("com.twitter"), none⟩).callsIssued =
      [⟨77, [5, 97, 108, 105, 99, 101, 3, 101, 116, 104, 0],
        [⟨namehash ("alice.eth"), "com.twitter"⟩], none, none⟩] :=
  getEnsText_reraises_other_failures _ _ _ 77
    ⟨77, [5, 97, 108, 105, 99, 101, 3, 101, 116, 104, 0],
     [⟨namehash ("alice.eth"), "com.twitter"⟩], none, none⟩
    (ThrownError.contractError 7) rfl rfl rfl rfl

/-- C6: when no explicit resolver address is supplied and the client has no
chain configured, `getEnsText` fails with the configuration error and the
aggregating read call is never issued. -/
theorem getEnsText_no_chain_config_error (client : Client)
    (readResolve : CallArgs → Except ThrownError (List (List Nat) × Nat))
    (p : Params)
    (hexp : p.universalResolverAddress = none)
    (hchain : client.chain = none) :
    (getEnsText client readResolve p).result = Except.error EnsFailure.configError ∧
    (getEnsText client readResolve p).callsIssued = [] := by
  have haddr : resolveUR client p = Except.error EnsFailure.configError := by
    simp [resolveUR, hexp, hchain]
  constructor <;> simp [getEnsText, haddr]

theorem getEnsText_no_chain_config_error_witness :
    (getEnsText ⟨none⟩ (fun _ => Except.error ThrownError.noResolver)
        ⟨none, none, "alice.eth", KeyArg.single ("url"), none⟩).result =
      Except.error EnsFailure.configError ∧
    (getEnsText ⟨none⟩ (fun _ => Except.error ThrownError.noResolver)
        ⟨none, none, "alice.eth", KeyArg.single ("url"), none⟩).callsIssued = [] :=
  getEnsText_no_chain_config_error _ _ _ rfl rfl

/-- C5: duplicate keys are not deduplicated — for a request of the same key
twice, the issued aggregating call carries two identical sub-calls and the
two positional sub-results are both decoded, the final mapping holding one
entry for the key whose value is the later positional result. -/
theorem getEnsText_duplicate_keys_last_wins (client : Client)
    (readResolve : CallArgs → Except ThrownError (List (List Nat) × Nat))
    (p : Params) (k : String) (addr : Nat) (args : CallArgs)
    (r1 r2 : List Nat) (v1 v2 : Option String) (raddr : Nat)
    (hk : p.key = KeyArg.many [k, k])
    (haddr : resolveUR client p = Except.ok addr)
    (hargs : buildCallArgs addr p = Except.ok args)
    (hread : readResolve args = Except.ok ([r1, r2], raddr))
    (h1 : decodeOne r1 = Except.ok v1)
    (h2 : decodeOne r2 = Except.ok v2) :
    args.calls = [⟨namehash p.name, k⟩, ⟨namehash p.name, k⟩] ∧
    (getEnsText client readResolve p).result =
      Except.ok (TextReturn.record [(k, v2)]) := by
  constructor
  · unfold buildCallArgs at hargs
    cases hpkt : packetToBytes p.name with
    | none => rw [hpkt] at hargs; cases hargs
    | some pkt =>
      rw [hpkt] at hargs
      cases hargs
      simp [keysOf, hk]
  · have hgo : decodeRecordsGo [k, k] 0 [r1, r2] [] = Except.ok [(k, v2)] := by
      simp [decodeRecordsGo, h1, h2, upsert]
    simp [getEnsText, haddr, hargs, hread, hk, keysOf, hgo, shape]

theorem getEnsText_duplicate_keys_last_wins_witness :
    (⟨77, [5, 97, 108, 105, 99, 101, 3, 101, 116, 104, 0],
       [⟨namehash ("alice.eth"), "url"⟩, ⟨namehash ("alice.eth"), "url"⟩], none,
       none⟩ : CallArgs).calls =
      [⟨namehash ("alice.eth"), "url"⟩, ⟨namehash ("alice.eth"), "url"⟩] ∧
    (getEnsText ⟨some ⟨77⟩⟩
        (fun _ => Except.ok ([encodeTextPayload ("one"), encodeTextPayload ("two")], 9))
        ⟨none, none, "alice.eth", KeyArg.many ["url", "url"], none⟩).result =
      Except.ok (TextReturn.record [("url", some "two")]) :=
  getEnsText_duplicate_keys_last_wins ⟨some ⟨77⟩⟩
    (fun _ => Except.ok ([encodeTextPayload ("one"), encodeTextPayload ("two")], 9))
    ⟨none, none, "alice.eth", KeyArg.many ["url", "url"], none⟩ "url" 77
    ⟨77, [5, 97, 108, 105, 99, 101, 3, 101, 116, 104, 0],
     [⟨namehash ("alice.eth"), "url"⟩, ⟨namehash ("alice.eth"), "url"⟩], none, none⟩
    (encodeTextPayload ("one")) (encodeTextPayload ("two"))
    (some "one") (some "two") 9 rfl rfl rfl rfl rfl rfl

/-- C7: a malformed (non-sentinel, undecodable) sub-result makes the whole
operation fail with the decoding error — it is surfaced to the caller, not
downgraded to `null`. -/
theorem getEnsText_malformed_payload_decoding_error (client : Client)
    (readResolve : CallArgs → Except ThrownError (List (List Nat) × Nat))
    (p : Params) (addr : Nat) (args : CallArgs)
    (rs1 : List (List Nat)) (bad : List Nat) (rest : List (List Nat)) (raddr : Nat)
    (haddr : resolveUR client p = Except.ok addr)
    (hargs : buildCallArgs addr p = Except.ok args)
    (hread : readResolve args = Except.ok (rs1 ++ bad :: rest, raddr))
    (hok : ∀ r ∈ rs1, ∃ v, decodeOne r = Except.ok v)
    (hbad0 : bad ≠ [])
    (hbad : decodeFunctionResult bad = none) :
    (getEnsText client readResolve p).result =
      Except.error (EnsFailure.raised ThrownError.decodingError) := by
  have hbadOne : decodeOne bad = Except.error ThrownError.decodingError := by
    simp [decodeOne, hbad0, hbad]
  have hgo := decodeRecordsGo_err (keysOf p.key) rs1 bad rest 0 [] hok hbadOne
  simp [getEnsText, haddr, hargs, hread, hgo, catchNull, isNullUniversalResolverError]

theorem getEnsText_malformed_payload_decoding_error_witness :
    (getEnsText ⟨some ⟨77⟩⟩ (fun _ => Except.ok ([[1, 2, 3]], 9))
        ⟨none, none, "alice.eth", KeyArg.single ("com.twitter"), none⟩).result =
      Except.error (EnsFailure.raised ThrownError.decodingError) :=
  getEnsText_malformed_payload_decoding_error _ _ _ 77
    ⟨77, [5, 97, 108, 105, 99, 101, 3, 101, 116, 104, 0],
     [⟨namehash ("alice.eth"), "com.twitter"⟩], none, none⟩
    [] [1, 2, 3] [] 9 rfl rfl rfl (by simp) (by decide) rfl

/-- C9: a key argument that is an array of length exactly one produces the
bare decoded value for that key (a string or `null`), not a one-entry
mapping — the return shape is decided by the number of keys. -/
theorem getEnsText_singleton_array_bare_value (client : Client)
    (readResolve : CallArgs → Except ThrownError (List (List Nat) × Nat))
    (p : Params) (k : String) (addr : Nat) (args : CallArgs)
    (r : List Nat) (v : Option String) (raddr : Nat)
    (hk : p.key = KeyArg.many [k])
    (haddr : resolveUR client p = Except.ok addr)
    (hargs : buildCallArgs addr p = Except.ok args)
    (hread : readResolve args = Except.ok ([r], raddr))
    (hdec : decodeOne r = Except.ok v) :
    (getEnsText client readResolve p).result =
      Except.ok (v.elim TextReturn.null TextReturn.value) := by
  have hgo : decodeRecordsGo (keysOf p.key) 0 [r] [] = Except.ok [(k, v)] := by
    rw [hk]
    simp [decodeRecordsGo, keysOf, hdec, upsert]
  have hshape : shape p.key [(k, v)] = v.elim TextReturn.null TextReturn.value := by
    rw [hk]
    cases v with
    | none => simp [shape, keysOf, joinKey, joinAux, jsGet]
    | some s => simp [shape, keysOf, joinKey, joinAux, jsGet]
  simp [getEnsText, haddr, hargs, hread, hgo, hshape]

theorem getEnsText_singleton_array_bare_value_witness :
    (getEnsText ⟨some ⟨77⟩⟩ (fun _ => Except.ok ([encodeTextPayload ("wagmi")], 9))
        ⟨none, none, "alice.eth", KeyArg.many ["url"], none⟩).result =
      Except.ok (TextReturn.value "wagmi") :=
  getEnsText_singleton_array_bare_value _ _ _ "url" 77
    ⟨77, [5, 97, 108, 105, 99, 101, 3, 101, 116, 104, 0],
     [⟨namehash ("alice.eth"), "url"⟩], none, none⟩
    (encodeTextPayload ("wagmi")) (some "wagmi") 9 rfl rfl rfl rfl rfl

/-- C10: an empty key array still issues the aggregating resolve call, with
zero sub-calls, and a successful empty answer yields an empty mapping, not
`null`. -/
theorem getEnsText_empty_keys_empty_map (client : Client)
    (readResolve : CallArgs → Except ThrownError (List (List Nat) × Nat))
    (p : Params) (addr : Nat) (args : CallArgs) (raddr : Nat)
    (hk : p.key = KeyArg.many [])
    (haddr : resolveUR client p = Except.ok addr)
    (hargs : buildCallArgs addr p = Except.ok args)
    (hread : readResolve args = Except.ok ([], raddr)) :
    args.calls = [] ∧
    (getEnsText client readResolve p).callsIssued = [args] ∧
    (getEnsText client readResolve p).result = Except.ok (TextReturn.record []) := by
  refine ⟨?_, ?_, ?_⟩
  · unfold buildCallArgs at hargs
    cases hpkt : packetToBytes p.name with
    | none => rw [hpkt] at hargs; cases hargs
    | some pkt =>
      rw [hpkt] at hargs
      cases hargs
      simp [keysOf, hk]
  · simp [getEnsText, haddr, hargs, hread, decodeRecordsGo]
  · simp [getEnsText, haddr, hargs, hread, decodeRecordsGo, shape, keysOf, hk]

theorem getEnsText_empty_keys_empty_map_witness :
    (⟨77, [5, 97, 108, 105, 99, 101, 3, 101, 116, 104, 0], [], none,
       none⟩ : CallArgs).calls = [] ∧
    (getEnsText ⟨some ⟨77⟩⟩ (fun _ => Except.ok ([], 9))
        ⟨none, none, "alice.eth", KeyArg.many [], none⟩).callsIssued =
      [⟨77, [5, 97, 108, 105, 99, 101, 3, 101, 116, 104, 0], [], none, none⟩] ∧
    (getEnsText ⟨some ⟨77⟩⟩ (fun _ => Except.ok ([], 9))
        ⟨none, none, "alice.eth", KeyArg.many [], none⟩).result =
      Except.ok (TextReturn.record []) :=
  getEnsText_empty_keys_empty_map ⟨some ⟨77⟩⟩ (fun _ => Except.ok ([], 9))
    ⟨none, none, "alice.eth", KeyArg.many [], none⟩ 77
    ⟨77, [5, 97, 108, 105, 99, 101, 3, 101, 116, 104, 0], [], none, none⟩ 9
    rfl rfl rfl rfl

/-- C4: for a request of multiple (distinct) keys with a positional answer
of matching length whose entries all decode, the returned mapping lists
exactly the requested keys in the requested order, and each key's value is
the independent decoding of its positional sub-result. -/
theorem getEnsText_multi_keys_positional_map (client : Client)
    (readResolve : CallArgs → Except ThrownError (List (List Nat) × Nat))
    (p : Params) (ks : List String) (addr : Nat) (args : CallArgs)
    (rs : List (List Nat)) (vs : List (Option String)) (raddr : Nat)
    (hk : p.key = KeyArg.many ks)
    (hmulti : 2 ≤ ks.length)
    (hnd : ks.Nodup)
    (haddr : resolveUR client p = Except.ok addr)
    (hargs : buildCallArgs addr p = Except.ok args)
    (hread : readResolve args = Except.ok (rs, raddr))
    (hlen : rs.length = ks.length)
    (hdec : List.Forall₂ (fun r v => decodeOne r = Except.ok v) rs vs) :
    (getEnsText client readResolve p).result =
      Except.ok (TextReturn.record (ks.zip vs)) ∧
    (ks.zip vs).map Prod.fst = ks ∧
    (∀ i, i < ks.length →
      jsGet (ks.zip vs) (ks.getD i ("undefined")) = some (vs.getD i none) ∧
      decodeOne (rs.getD i []) = Except.ok (vs.getD i none)) := by
  have hvs : vs.length = ks.length := by
    rw [← hdec.length_eq]
    exact hlen
  have hgo : decodeRecordsGo ks 0 rs [] = Except.ok (ks.zip vs) := by
    have h0 := decodeRecordsGo_zip ks rs vs ks 0 [] hdec
      (fun j _ => by simp) hlen hnd (fun q hq => by cases hq)
    simpa using h0
  refine ⟨?_, ?_, ?_⟩
  · have hne1 : ¬ks.length = 1 := by omega
    simp [getEnsText, haddr, hargs, hread, hk, keysOf, hgo, shape, hne1]
  · exact List.map_fst_zip ks vs (by omega)
  · intro i hi
    constructor
    · exact jsGet_zip ks vs i hnd hi hvs
    · have hi_rs : i < rs.length := by omega
      have hi_vs : i < vs.length := by omega
      have hgetr : rs.getD i [] = rs.get ⟨i, hi_rs⟩ := by
        rw [List.getD_eq_getElem rs [] hi_rs]
        rfl
      have hgetv : vs.getD i none = vs.get ⟨i, hi_vs⟩ := by
        rw [List.getD_eq_getElem vs none hi_vs]
        rfl
      rw [hgetr, hgetv]
      exact hdec.get hi_rs hi_vs

theorem getEnsText_multi_keys_positional_map_witness :
    ((getEnsText ⟨some ⟨77⟩⟩
        (fun _ => Except.ok ([encodeTextPayload ("a@b"), []], 9))
        ⟨none, none, "alice.eth", KeyArg.many ["email", "url"], none⟩).result =
      Except.ok (TextReturn.record [("email", some "a@b"), ("url", none)]) ∧
    ([("email", some "a@b"), ("url", none)] : RecordMap).map Prod.fst = ["email", "url"] ∧
    (∀ i, i < (["email", "url"] : List String).length →
      jsGet [("email", some "a@b"), ("url", none)]
          ((["email", "url"] : List String).getD i ("undefined")) =
        some (([some "a@b", none] : List (Option String)).getD i none) ∧
      decodeOne (([encodeTextPayload ("a@b"), []] : List (List Nat)).getD i []) =
        Except.ok (([some "a@b", none] : List (Option String)).getD i none))) :=
  getEnsText_multi_keys_positional_map ⟨some ⟨77⟩⟩
    (fun _ => Except.ok ([encodeTextPayload ("a@b"), []], 9))
    ⟨none, none, "alice.eth", KeyArg.many ["email", "url"], none⟩
    ["email", "url"] 77
    ⟨77, [5, 97, 108, 105, 99, 101, 3, 101, 116, 104, 0],
     [⟨namehash ("alice.eth"), "email"⟩, ⟨namehash ("alice.eth"), "url"⟩], none, none⟩
    [encodeTextPayload ("a@b"), []] [some "a@b", none] 9
    rfl (by decide) (by decide) rfl rfl rfl rfl
    (List.Forall₂.cons rfl (List.Forall₂.cons rfl List.Forall₂.nil))

lemma keccak256_length (msg : List Nat) : (keccak256 msg).length = 32 := by
  simp [keccak256, natToLEBytes]

set_option maxRecDepth 100000 in
set_option maxHeartbeats 4000000 in
lemma keccak256_label_eth : keccak256 (labelBytes ("eth").data) =
    [79, 91, 129, 39, 137, 252, 96, 107, 225, 179, 177, 105, 8, 219, 19, 252,
     122, 154, 223, 124, 167, 38, 65, 248, 77, 117, 180, 112, 105, 211, 215, 240] := by
  decide

set_option maxRecDepth 100000 in
set_option maxHeartbeats 4000000 in
lemma keccak256_label_a : keccak256 (labelBytes ("a").data) =
    [58, 194, 37, 22, 141, 245, 66, 18, 162, 92, 28, 1, 253, 53, 190, 191,
     234, 64, 143, 218, 194, 227, 29, 221, 111, 128, 164, 187, 249, 165, 241, 203] := by
  decide

set_option maxRecDepth 100000 in
set_option maxHeartbeats 4000000 in
lemma keccak256_label_b : keccak256 (labelBytes ("b").data) =
    [181, 85, 61, 227, 21, 224, 237, 245, 4, 217, 21, 10, 248, 45, 175, 165,
     196, 102, 127, 166, 24, 237, 10, 111, 25, 198, 155, 65, 22, 108, 85, 16] := by
  decide

set_option maxRecDepth 100000 in
set_option maxHeartbeats 4000000 in
lemma keccak256_digest_eth : keccak256 (List.replicate 32 0 ++
    [79, 91, 129, 39, 137, 252, 96, 107, 225, 179, 177, 105, 8, 219, 19, 252,
     122, 154, 223, 124, 167, 38, 65, 248, 77, 117, 180, 112, 105, 211, 215, 240]) =
    [147, 205, 235, 112, 139, 117, 69, 220, 102, 142, 185, 40, 1, 118, 22, 157,
     28, 51, 207, 216, 237, 111, 4, 105, 10, 11, 204, 136, 169, 63, 196, 174] := by
  decide

set_option maxRecDepth 100000 in
set_option maxHeartbeats 4000000 in
lemma keccak256_digest_b_eth : keccak256
    ([147, 205, 235, 112, 139, 117, 69, 220, 102, 142, 185, 40, 1, 118, 22, 157,
      28, 51, 207, 216, 237, 111, 4, 105, 10, 11, 204, 136, 169, 63, 196, 174] ++
     [181, 85, 61, 227, 21, 224, 237, 245, 4, 217, 21, 10, 248, 45, 175, 165,
      196, 102, 127, 166, 24, 237, 10, 111, 25, 198, 155, 65, 22, 108, 85, 16]) =
    [192, 171, 90, 117, 185, 206, 206, 211, 182, 96, 179, 97, 76, 199, 33, 244,
     253, 112, 220, 221, 108, 18, 158, 253, 130, 219, 152, 179, 105, 172, 183, 8] := by
  decide

set_option maxRecDepth 100000 in
set_option maxHeartbeats 4000000 in
lemma keccak256_digest_a_b_eth : keccak256
    ([192, 171, 90, 117, 185, 206, 206, 211, 182, 96, 179, 97, 76, 199, 33, 244,
      253, 112, 220, 221, 108, 18, 158, 253, 130, 219, 152, 179, 105, 172, 183, 8] ++
     [58, 194, 37, 22, 141, 245, 66, 18, 162, 92, 28, 1, 253, 53, 190, 191,
      234, 64, 143, 218, 194, 227, 29, 221, 111, 128, 164, 187, 249, 165, 241, 203]) =
    [235, 201, 21, 230, 106, 165, 7, 80, 3, 129, 21, 249, 190, 51, 83, 247,
     2, 50, 71, 228, 171, 84, 155, 75, 161, 39, 20, 129, 184, 24, 144, 165] := by
  decide

set_option maxRecDepth 100000 in
set_option maxHeartbeats 4000000 in
lemma keccak256_digest_a_eth : keccak256
    ([147, 205, 235, 112, 139, 117, 69, 220, 102, 142, 185, 40, 1, 118, 22, 157,
      28, 51, 207, 216, 237, 111, 4, 105, 10, 11, 204, 136, 169, 63, 196, 174] ++
     [58, 194, 37, 22, 141, 245, 66, 18, 162, 92, 28, 1, 253, 53, 190, 191,
      234, 64, 143, 218, 194, 227, 29, 221, 111, 128, 164, 187, 249, 165, 241, 203]) =
    [252, 236, 15, 245, 140, 16, 190, 14, 57, 154, 58, 81, 24, 105, 104, 81,
     60, 195, 164, 197, 114, 165, 29, 104, 143, 243, 56, 179, 251, 246, 167, 249] := by
  decide

set_option maxRecDepth 100000 in
set_option maxHeartbeats 4000000 in
lemma keccak256_digest_b_a_eth : keccak256
    ([252, 236, 15, 245, 140, 16, 190, 14, 57, 154, 58, 81, 24, 105, 104, 81,
      60, 195, 164, 197, 114, 165, 29, 104, 143, 243, 56, 179, 251, 246, 167, 249] ++
     [181, 85, 61, 227, 21, 224, 237, 245, 4, 217, 21, 10, 248, 45, 175, 165,
      196, 102, 127, 166, 24, 237, 10, 111, 25, 198, 155, 65, 22, 108, 85, 16]) =
    [234, 30, 40, 89, 235, 20, 250, 200, 111, 23, 12, 110, 64, 35, 175, 148,
     153, 161, 162, 159, 182, 62, 211, 129, 20, 175, 169, 251, 245, 128, 63, 235] := by
  decide

set_option maxRecDepth 100000 in
set_option maxHeartbeats 4000000 in
/-- C8: the name hash is a pure, deterministic function of label content
and order — equal label lists give identical hashes, every hash is a
32-byte digest, and swapping label order (as in a.b.eth against b.a.eth)
gives a different digest. -/
theorem namehash_deterministic_order_sensitive :
    (∀ n1 n2 : String, splitDots n1.data = splitDots n2.data →
      namehash n1 = namehash n2) ∧
    (∀ n : String, (namehash n).length = 32) ∧
    namehash ("a.b.eth") ≠ namehash ("b.a.eth") := by
  refine ⟨?_, ?_, ?_⟩
  · intro n1 n2 h
    unfold namehash
    rw [h]
  · intro n
    unfold namehash
    induction splitDots n.data with
    | nil => simp
    | cons l ls ih =>
      simp only [List.foldr_cons]
      exact keccak256_length _
  · have hab : namehash ("a.b.eth") =
        keccak256 (keccak256 (keccak256 (List.replicate 32 0 ++
          keccak256 (labelBytes ("eth").data)) ++
          keccak256 (labelBytes ("b").data)) ++
          keccak256 (labelBytes ("a").data)) := rfl
    have hba : namehash ("b.a.eth") =
        keccak256 (keccak256 (keccak256 (List.replicate 32 0 ++
          keccak256 (labelBytes ("eth").data)) ++
          keccak256 (labelBytes ("a").data)) ++
          keccak256 (labelBytes ("b").data)) := rfl
    rw [hab, hba, keccak256_label_eth, keccak256_label_a, keccak256_label_b,
      keccak256_digest_eth, keccak256_digest_b_eth, keccak256_digest_a_b_eth,
      keccak256_digest_a_eth, keccak256_digest_b_a_eth]
    decide

theorem namehash_deterministic_order_sensitive_witness :
    namehash ("alice.eth") = namehash ("alice.eth") ∧
    (namehash ("alice.eth")).length = 32 ∧
    namehash ("a.b.eth") ≠ namehash ("b.a.eth") :=
  ⟨namehash_deterministic_order_sensitive.1 ("alice.eth") ("alice.eth") rfl,
   namehash_deterministic_order_sensitive.2.1 ("alice.eth"),
   namehash_deterministic_order_sensitive.2.2⟩
